import Mathlib

/-!
Verification of the ngwmn-ui well-log / water-level derivation pipeline.

This file gives a shallow embedding, in Lean 4, of the derivation code in
`src/assets/src/scripts/components/graph/state/well-log.js`, of the
median-water-level-table component in
`src/assets/src/scripts/components/median-water-level-table/index.js`, and
(modelled from the specification, since its source is not part of the
provided tree) of the water-level retrieval orchestrator, and proves or
refutes the stated properties of those functions.

JavaScript numbers are modelled as extended rationals (`JsNum`): a rational
value, the two infinities produced by `Math.min()` / `Math.max()` on empty
argument lists, and `NaN`.  Field accesses that can be `null`/absent are
modelled with `Option`; a JavaScript `TypeError` (reading a property of
`undefined`) is modelled by an `Option.none` result of the embedded
function.
-/

namespace Ngwmn

/-- Extended JavaScript number: `NaN`, `-Infinity`, a finite (rational)
value, or `Infinity`. -/
inductive JsNum where
  | nan : JsNum
  | negInf : JsNum
  | num : ℚ → JsNum
  | posInf : JsNum
deriving DecidableEq, Repr

namespace JsNum

/-- Binary `Math.min`: `NaN` absorbs; otherwise the smaller value with
`-Infinity < finite < Infinity`. -/
def jsMin : JsNum → JsNum → JsNum
  | nan, _ => nan
  | _, nan => nan
  | negInf, _ => negInf
  | _, negInf => negInf
  | posInf, b => b
  | a, posInf => a
  | num a, num b => num (min a b)

/-- Binary `Math.max`: `NaN` absorbs; otherwise the larger value. -/
def jsMax : JsNum → JsNum → JsNum
  | nan, _ => nan
  | _, nan => nan
  | posInf, _ => posInf
  | _, posInf => posInf
  | negInf, b => b
  | a, negInf => a
  | num a, num b => num (max a b)

/-- Spread form `Math.min(...xs)`: fold of binary min starting from `Math.min() = Infinity`. -/
def jsMinList (l : List JsNum) : JsNum := l.foldl jsMin posInf

/-- Spread form `Math.max(...xs)`: fold of binary max starting from `Math.max() = -Infinity`. -/
def jsMaxList (l : List JsNum) : JsNum := l.foldl jsMax negInf

/-- IEEE subtraction on extended numbers: same-signed infinities give `NaN`. -/
def jsSub : JsNum → JsNum → JsNum
  | nan, _ => nan
  | _, nan => nan
  | posInf, posInf => nan
  | posInf, _ => posInf
  | negInf, negInf => nan
  | negInf, _ => negInf
  | num _, posInf => negInf
  | num _, negInf => posInf
  | num a, num b => num (a - b)

/-- JavaScript `<` on numbers: any comparison with `NaN` is false. -/
def jsLt : JsNum → JsNum → Prop
  | nan, _ => False
  | _, nan => False
  | negInf, negInf => False
  | negInf, _ => True
  | _, negInf => False
  | posInf, _ => False
  | num _, posInf => True
  | num a, num b => a < b

instance : DecidablePred (fun p : JsNum × JsNum => jsLt p.1 p.2) := by
  rintro ⟨a, b⟩
  cases a <;> cases b <;> simp [jsLt] <;> infer_instance

instance (a b : JsNum) : Decidable (jsLt a b) := by
  cases a <;> cases b <;> simp [jsLt] <;> infer_instance

/-- JavaScript truthiness of a number: `0` and `NaN` are falsy. -/
def jsTruthy : JsNum → Bool
  | nan => false
  | num q => decide (q ≠ 0)
  | _ => true

/-- JavaScript `isFinite`. -/
def jsIsFinite : JsNum → Bool
  | num _ => true
  | _ => false

end JsNum

open JsNum

/-! ## Data model of the well-log records (spec §3, `well-log.js`) -/

/-- A depth interval `{start, end}`; the JavaScript field `end` is called
`end_` here because `end` is a Lean keyword. -/
structure Coordinates where
  start : ℚ
  end_ : ℚ
deriving DecidableEq, Repr

/-- The `shape` field of a well-log entry. -/
structure Shape where
  coordinates : Coordinates
deriving DecidableEq, Repr

/-- A well-log entry (`log_entries` element). -/
structure LogEntry where
  shape : Shape
deriving DecidableEq, Repr

/-- The `position` field of a construction element; `coordinates` may be
absent. -/
structure Position where
  coordinates : Option Coordinates
  unit : String
deriving DecidableEq, Repr

/-- The `diameter` field of a construction element; `value` may be `null`. -/
structure Diameter where
  value : Option ℚ
  unit : String
deriving DecidableEq, Repr

/-- A well construction element; `position` and `diameter` may be absent
altogether. -/
structure Element where
  position : Option Position
  diameter : Option Diameter
  type : String
deriving DecidableEq, Repr

/-- A well log record: `log_entries` and `construction` may be absent. -/
structure WellLog where
  log_entries : Option (List LogEntry)
  construction : Option (List Element)
deriving DecidableEq, Repr

/-- Selector `wellLogs[siteID] || \x7b\x7d` — the well log for the current site, with an
empty-object sentinel for a missing site. -/
def getCurrentWellLog (wellLogs : List (String × WellLog)) (siteID : String) : WellLog :=
  (wellLogs.lookup siteID).getD ⟨none, none⟩

/-- Selector `wellLog.log_entries || []`. -/
def getWellLogEntries (wellLog : WellLog) : List LogEntry :=
  wellLog.log_entries.getD []

/-- Selector `getWellLogEntriesExtentY`: `[0, 0]` for an empty entry list, otherwise
`[Math.min(...starts), Math.max(...ends)]`. -/
def getWellLogEntriesExtentY (wellLogEntries : List LogEntry) : JsNum × JsNum :=
  if wellLogEntries.length = 0 then
    (num 0, num 0)
  else
    (jsMinList (wellLogEntries.map fun entry => num entry.shape.coordinates.start),
     jsMaxList (wellLogEntries.map fun entry => num entry.shape.coordinates.end_))

/-- The drawable-elements filter: `element.position && element.position.coordinates`. -/
def getDrawableElements (wellLog : WellLog) : List Element :=
  (wellLog.construction.getD []).filter fun element =>
    match element.position with
    | some p => p.coordinates.isSome
    | none => false

/-- Access `elem.position.coordinates` for a drawable element.  The default is
unreachable for elements that pass the drawable filter. -/
def coordsOf (element : Element) : Coordinates :=
  ((element.position.bind Position.coordinates)).getD ⟨0, 0⟩

/-- Selector `getConstructionExtentY`: min of starts and max of ends over the
drawable elements; `[Infinity, -Infinity]` when there are none. -/
def getConstructionExtentY (elements : List Element) : JsNum × JsNum :=
  (jsMinList (elements.map fun elem => num (coordsOf elem).start),
   jsMaxList (elements.map fun elem => num (coordsOf elem).end_))

/-- Selector `getWellLogExtentY`: pointwise min/max combine of the entries extent and
the construction extent. -/
def getWellLogExtentY (wellLog : WellLog) : JsNum × JsNum :=
  let extentA := getWellLogEntriesExtentY (getWellLogEntries wellLog)
  let extentB := getConstructionExtentY (getDrawableElements wellLog)
  (jsMin extentA.1 extentB.1, jsMax extentA.2 extentB.2)

/-- Selector `getWellRadius`: maps drawable elements to `diameter.value` (a
`TypeError`, modelled as `none`, when `diameter` is absent), drops `null`s,
and returns `Math.max(...values) / 2`, defaulting to `1` when no values
remain. -/
def getWellRadius (elements : List Element) : Option ℚ := do
  let raw ← elements.mapM fun part => part.diameter.map Diameter.value
  let values := raw.filterMap id
  match values with
  | [] => pure 1
  | v :: rest => pure ((rest.foldl max v) / 2)

/-! ## Construction element geometry (`getConstructionElements`) -/

/-- One construction part as produced by the per-element pass of
`getConstructionElements`.  `leftX`/`rightX` are `null` (`none`) until a
radius is available. -/
structure Part where
  type : String
  radius : ℚ
  title : String
  thickness : ℚ
  leftX : Option ℚ
  leftY1 : ℚ
  leftY2 : ℚ
  rightX : Option ℚ
  rightY1 : ℚ
  rightY2 : ℚ
deriving DecidableEq, Repr

/-- lodash `capitalize`: first character upper-cased, the rest lower-cased. -/
def lodashCapitalize (s : String) : String :=
  s.toLower.capitalize

/-- Access `element.position.unit` for a drawable element. -/
def unitOf (element : Element) : String :=
  (element.position.map Position.unit).getD ""

/-- The per-element pass of `getConstructionElements`: builds a `Part` from
a drawable element, failing (JavaScript `TypeError`, modelled as `none`)
when `diameter` is absent.  A `null` `diameter.value` divides to `0` in
JavaScript (`null / 2 === 0`). -/
def mkPart (xScale yScale : ℚ → ℚ) (element : Element) : Option Part := do
  let d ← element.diameter
  let loc := coordsOf element
  let unit := unitOf element
  let radius := (d.value.getD 0) / 2
  let diamStr :=
    if radius ≠ 0 then toString (d.value.getD 0) ++ " " ++ d.unit else "unknown"
  let locString := toString loc.start ++ " - " ++ toString loc.end_ ++ " " ++ unit
  pure
    { type := element.type
      radius := radius
      title := lodashCapitalize element.type ++ ", " ++ diamStr ++ " diameter, "
        ++ locString ++ " depth"
      thickness := xScale (1 / 2) - xScale 0
      leftX := if radius ≠ 0 then some (xScale (-radius)) else none
      leftY1 := yScale loc.start
      leftY2 := yScale loc.end_
      rightX := if radius ≠ 0 then some (xScale radius) else none
      rightY1 := yScale loc.start
      rightY2 := yScale loc.end_ }

/-- Overwrite a part's `left.x`/`right.x` with the positions of `±r` on the
radius scale. -/
def setPartX (xScale : ℚ → ℚ) (r : ℚ) (part : Part) : Part :=
  { part with leftX := some (xScale (-r)), rightX := some (xScale r) }

/-- The `Math.min(...neighbors.map(n => n.radius))` of the inference loop
body: the nearest left and right neighbors of `index` with a truthy radius
(`slice(0, index).reverse().find(...)` and `slice(index + 1).find(...)`),
kept when truthy, mapped to their radii and folded with `Math.min`. -/
def neighborMin (parts : List Part) (index : Nat) : JsNum :=
  jsMinList
    (((([(parts.take index).reverse.find? fun p => p.radius ≠ 0,
        (parts.drop (index + 1)).find? fun p => p.radius ≠ 0]).filterMap id).filter
      fun n => n.radius ≠ 0).map fun n => num n.radius)

/-- One iteration of the radius-inference loop of `getConstructionElements`
at position `index`: parts with a truthy `radius` are skipped; otherwise the
`Math.min` of the truthy-radius neighbors' radii is used when truthy and
finite, else `1`. -/
def inferStep (xScale : ℚ → ℚ) (parts : List Part) (index : Nat) : List Part :=
  match parts[index]? with
  | none => parts
  | some part =>
    if part.radius ≠ 0 then
      parts
    else
      if (jsTruthy (neighborMin parts index) && jsIsFinite (neighborMin parts index)) = true then
        match neighborMin parts index with
        | num q => parts.set index (setPartX xScale q part)
        | _ => parts.set index (setPartX xScale 1 part)
      else
        parts.set index (setPartX xScale 1 part)

/-- The radius-inference pass: the `for` loop over all indices in order. -/
def inferencePass (xScale : ℚ → ℚ) (parts : List Part) : List Part :=
  (List.range parts.length).foldl (inferStep xScale) parts

/-- The z-order comparator passed to `Array.prototype.sort`: descending by
`left.y2`, ties broken by descending `radius`. -/
def jsCompareParts (a b : Part) : Int :=
  if a.leftY2 < b.leftY2 then 1
  else if b.leftY2 < a.leftY2 then -1
  else if a.radius < b.radius then 1
  else if b.radius < a.radius then -1
  else 0

/-- The total preorder induced by the comparator: `a` may precede `b` iff
the comparator does not order `a` strictly after `b`. -/
def partCmpLE (a b : Part) : Prop :=
  jsCompareParts a b ≤ 0

instance : DecidableRel partCmpLE := fun a b =>
  inferInstanceAs (Decidable (jsCompareParts a b ≤ 0))

/-- Sorting `parts.sort(comparator)`: JavaScript's sort is stable (ES2019), modelled
by the stable insertion sort with the comparator's induced preorder. -/
def sortParts (parts : List Part) : List Part :=
  parts.insertionSort partCmpLE

/-- Selector `getConstructionElements` for given radius/vertical scales: per-element
pass, radius-inference pass, z-order sort.  `none` models the `TypeError`
raised when a drawable element lacks `diameter`. -/
def getConstructionElements (xScale yScale : ℚ → ℚ) (elements : List Element) :
    Option (List Part) := do
  let parts ← elements.mapM (mkPart xScale yScale)
  pure (sortParts (inferencePass xScale parts))


/-! ## Cursor water-level overlay (`getWellWaterLevel`) -/

/-- The cursor datum: the sample under the cursor, with its `value`. -/
structure CursorDatum where
  value : ℚ
deriving DecidableEq, Repr

/-- The overlay rectangle produced by `getWellWaterLevel`. -/
structure Rect where
  x : JsNum
  y : JsNum
  width : JsNum
  height : JsNum
deriving DecidableEq, Repr

/-- Selector `getWellWaterLevel` for a given horizontal-scale range `xRange`
(`xScale.range()`), vertical scale, cursor datum and construction extent:
`null` without a cursor datum, else the rectangle
`{x: xRange[0], y: top, width: xRange[1], height: Math.max(bottom - top, 0)}`
with `top = yScale(cursorDatum.value)` and `bottom = yScale(extentY[1])`. -/
def getWellWaterLevel (xRange : ℚ × ℚ) (yScale : JsNum → JsNum)
    (cursorDatum : Option CursorDatum) (extentY : JsNum × JsNum) : Option Rect :=
  match cursorDatum with
  | none => none
  | some d =>
    let top := yScale (num d.value)
    let bottom := yScale extentY.2
    some
      { x := num xRange.1
        y := top
        width := num xRange.2
        height := jsMax (jsSub bottom top) (num 0) }

/-! ## Water-level service state (`water-levels.js`, modelled from the spec
where its source is not in the tree) -/

/-- Per-site fetch lifecycle status (spec §3 Call Status). -/
inductive CallStatus where
  | STARTED : CallStatus
  | DONE : CallStatus
  | FAILED : CallStatus
deriving DecidableEq, Repr

/-- A water-level measurement sample. -/
structure Sample where
  value : ℚ
deriving DecidableEq, Repr

/-- A per-site water-level record; `samples` may be absent (the empty-object
sentinel returned for unknown sites has no `samples` field). -/
structure WaterLevelRecord where
  samples : Option (List Sample)
deriving DecidableEq, Repr

/-- Canonical string form of a site key (spec §3). -/
def siteKey (agencyCode siteId : String) : String :=
  agencyCode ++ ":" ++ siteId

/-- The water-levels partition of the store: a `data` map and a status map,
both keyed by the canonical site key. -/
structure WaterLevelsState where
  data : List (String × WaterLevelRecord)
  statuses : List (String × CallStatus)
deriving DecidableEq, Repr

/-- The two store-mutating actions of the water-levels service
(`WATER_LEVELS_SET` and `WATER_LEVELS_CALL_STATUS`). -/
inductive Action where
  | waterLevelsSet (agencyCode siteId : String) (waterLevels : WaterLevelRecord) : Action
  | waterLevelsCallStatus (agencyCode siteId : String) (status : CallStatus) : Action
deriving DecidableEq, Repr

/-- Modelled from the spec: the water-levels reducer (`water-levels.js` is
not under `src/`; §4.1 specifies the two setter operations, last write
wins). -/
def waterLevelsReducer (state : WaterLevelsState) (action : Action) : WaterLevelsState :=
  match action with
  | Action.waterLevelsSet agencyCode siteId waterLevels =>
    { state with data := (siteKey agencyCode siteId, waterLevels) :: state.data }
  | Action.waterLevelsCallStatus agencyCode siteId status =>
    { state with statuses := (siteKey agencyCode siteId, status) :: state.statuses }

/-- Selector `getSiteWaterLevels`: the stored record for the key, `none` standing for
the empty-object sentinel. -/
def getSiteWaterLevels (agencyCode siteId : String) (state : WaterLevelsState) :
    Option WaterLevelRecord :=
  state.data.lookup (siteKey agencyCode siteId)

/-- Selector `getWaterLevelStatus`: the stored status for the key, or `none`
(`undefined`) if never attempted. -/
def getWaterLevelStatus (agencyCode siteId : String) (state : WaterLevelsState) :
    Option CallStatus :=
  state.statuses.lookup (siteKey agencyCode siteId)

/-- Modelled from the spec: `retrieveWaterLevels` (`water-levels.js` is not
under `src/`; §4.2 and §8 specify that a retrieval whose fetch succeeds
dispatches a STARTED status, the data-set action with the parsed records,
and a DONE status, in that order).  The result is the dispatched action
trace. -/
def retrieveWaterLevels (agencyCode siteId : String) (waterLevels : WaterLevelRecord) :
    List Action :=
  [Action.waterLevelsCallStatus agencyCode siteId CallStatus.STARTED,
   Action.waterLevelsSet agencyCode siteId waterLevels,
   Action.waterLevelsCallStatus agencyCode siteId CallStatus.DONE]

/-! ## Median water-level table component (`median-water-level-table/index.js`) -/

/-- Renderer `drawTableBody`: `const samples = (waterLevels.samples || []).reverse();`
`Array.prototype.reverse` reverses *in place*, so the call both returns the
reversed list (handed to the `List` widget) and mutates the stored record.
The second component is the stored record as it stands after the call. -/
def drawTableBody (waterLevels : WaterLevelRecord) : List Sample × WaterLevelRecord :=
  let samples := (waterLevels.samples.getD []).reverse
  (samples,
   match waterLevels.samples with
   | some s => { waterLevels with samples := some s.reverse }
   | none => waterLevels)

/-- The component's retrieval gate:
`if (!getWaterLevelStatus(agencyCode, siteId)(store.getState()))` — the
retrieval is dispatched exactly when no status is recorded (every recorded
status is a non-empty, hence truthy, string). -/
def medianTableRetrievalGate (agencyCode siteId : String) (state : WaterLevelsState) : Bool :=
  (getWaterLevelStatus agencyCode siteId state).isNone


/-! ## Auxiliary definitions used to state the verified properties -/

/-- The effective radius the radius-inference rule assigns to the element at
`index`, stated in the specification's terms: the nearest preceding and
nearest following element (in list order) with a truthy radius; the smaller
available neighbor radius when at least one exists; `1` otherwise.  Compared
against the behaviour of `inferStep`/`inferencePass` below. -/
def claimEffectiveRadius (parts : List Part) (index : Nat) : ℚ :=
  match (parts.take index).reverse.find? (fun p => p.radius ≠ 0),
      (parts.drop (index + 1)).find? (fun p => p.radius ≠ 0) with
  | none, none => 1
  | some l, none => l.radius
  | none, some r => r.radius
  | some l, some r => min l.radius r.radius

/-- Fold a dispatched action trace into the store. -/
def applyActions (state : WaterLevelsState) (trace : List Action) : WaterLevelsState :=
  trace.foldl waterLevelsReducer state

/-- A drawable construction element (position and coordinates present) that
lacks the `diameter` field. -/
def noDiamElem : Element :=
  ⟨some ⟨some ⟨1, 2⟩, "ft"⟩, none, "screen"⟩

/-- A well log whose construction holds `noDiamElem` only. -/
def noDiamLog : WellLog :=
  ⟨none, some [noDiamElem]⟩

/-- A well log whose only construction element is filtered out of the
drawable elements (its `position.coordinates` is absent). -/
def noCoordsLog : WellLog :=
  ⟨none, some [⟨some ⟨none, "ft"⟩, some ⟨some 4, "in"⟩, "screen"⟩]⟩

/-- A well log with drawable elements whose diameters are all present. -/
def goodLog : WellLog :=
  ⟨some [⟨⟨⟨0, 20⟩⟩⟩],
   some [⟨some ⟨some ⟨0, 20⟩, "ft"⟩, some ⟨some 4, "in"⟩, "casing"⟩]⟩

/-- A part with the given `left.y2` and `radius`; the remaining fields are
fixed. -/
def examplePart (y2 r : ℚ) : Part :=
  { type := "casing", radius := r, title := "", thickness := 0
    leftX := if r ≠ 0 then some (-r) else none, leftY1 := 0, leftY2 := y2
    rightX := if r ≠ 0 then some r else none, rightY1 := 0, rightY2 := y2 }

/-- The four construction elements of the radius-inference example: radii
`[2, 0, 0, 5]` in list order (diameters `4`, `0`, `null`, `10`). -/
def radiusExampleElements : List Element :=
  [⟨some ⟨some ⟨0, 40⟩, "ft"⟩, some ⟨some 4, "in"⟩, "casing"⟩,
   ⟨some ⟨some ⟨0, 30⟩, "ft"⟩, some ⟨some 0, "in"⟩, "screen"⟩,
   ⟨some ⟨some ⟨0, 20⟩, "ft"⟩, some ⟨none, "in"⟩, "screen"⟩,
   ⟨some ⟨some ⟨0, 10⟩, "ft"⟩, some ⟨some 10, "in"⟩, "casing"⟩]

/-- A stored water-level record with two samples in chronological order. -/
def storedLevels : WaterLevelRecord :=
  ⟨some [⟨1⟩, ⟨2⟩]⟩

/-- A store whose only recorded status for `USGS:430406089232901` is
`FAILED`. -/
def failedState : WaterLevelsState :=
  ⟨[], [("USGS:430406089232901", CallStatus.FAILED)]⟩

/-- A store whose only recorded status for `USGS:1` is `STARTED`. -/
def startedState : WaterLevelsState :=
  ⟨[], [("USGS:1", CallStatus.STARTED)]⟩


/-! ## Helper lemmas on the extended-number folds -/

theorem jsMin_posInf_left (b : JsNum) : jsMin posInf b = b := by
  cases b <;> rfl

theorem jsMin_posInf_right (a : JsNum) : jsMin a posInf = a := by
  cases a <;> rfl

theorem jsMax_negInf_left (b : JsNum) : jsMax negInf b = b := by
  cases b <;> rfl

theorem jsMax_negInf_right (a : JsNum) : jsMax a negInf = a := by
  cases a <;> rfl

theorem foldl_jsMin_map_num : ∀ (l : List ℚ) (a : ℚ),
    List.foldl jsMin (num a) (l.map num) = num (l.foldl min a)
  | [], _ => rfl
  | _ :: t, a => foldl_jsMin_map_num t _

theorem foldl_jsMax_map_num : ∀ (l : List ℚ) (a : ℚ),
    List.foldl jsMax (num a) (l.map num) = num (l.foldl max a)
  | [], _ => rfl
  | _ :: t, a => foldl_jsMax_map_num t _

theorem foldl_min_mem : ∀ (l : List ℚ) (a : ℚ), l.foldl min a ∈ a :: l
  | [], a => by simp
  | b :: t, a => by
    have h := foldl_min_mem t (min a b)
    rw [List.foldl_cons]
    rcases List.mem_cons.mp h with h1 | h1
    · rw [h1]
      rcases min_choice a b with h2 | h2 <;> rw [h2]
      · exact List.mem_cons_self _ _
      · exact List.mem_cons_of_mem _ (List.mem_cons_self _ _)
    · exact List.mem_cons_of_mem _ (List.mem_cons_of_mem _ h1)

theorem foldl_min_le : ∀ (l : List ℚ) (a : ℚ), ∀ x ∈ a :: l, l.foldl min a ≤ x
  | [], a => by simp
  | b :: t, a => by
    intro x hx
    have h := foldl_min_le t (min a b)
    simp only [List.foldl_cons]
    rcases List.mem_cons.mp hx with rfl | hx1
    · exact le_trans (h _ (List.mem_cons_self _ _)) (min_le_left _ _)
    · rcases List.mem_cons.mp hx1 with rfl | hx2
      · exact le_trans (h _ (List.mem_cons_self _ _)) (min_le_right _ _)
      · exact h _ (List.mem_cons_of_mem _ hx2)

theorem foldl_max_mem : ∀ (l : List ℚ) (a : ℚ), l.foldl max a ∈ a :: l
  | [], a => by simp
  | b :: t, a => by
    have h := foldl_max_mem t (max a b)
    rw [List.foldl_cons]
    rcases List.mem_cons.mp h with h1 | h1
    · rw [h1]
      rcases max_choice a b with h2 | h2 <;> rw [h2]
      · exact List.mem_cons_self _ _
      · exact List.mem_cons_of_mem _ (List.mem_cons_self _ _)
    · exact List.mem_cons_of_mem _ (List.mem_cons_of_mem _ h1)

theorem le_foldl_max : ∀ (l : List ℚ) (a : ℚ), ∀ x ∈ a :: l, x ≤ l.foldl max a
  | [], a => by simp
  | b :: t, a => by
    intro x hx
    have h := le_foldl_max t (max a b)
    simp only [List.foldl_cons]
    rcases List.mem_cons.mp hx with rfl | hx1
    · exact le_trans (le_max_left _ _) (h _ (List.mem_cons_self _ _))
    · rcases List.mem_cons.mp hx1 with rfl | hx2
      · exact le_trans (le_max_right _ _) (h _ (List.mem_cons_self _ _))
      · exact h _ (List.mem_cons_of_mem _ hx2)

/-- Evaluating `Math.min` over a non-empty list of finite values is the finite minimum. -/
theorem jsMinList_spec (l : List ℚ) (h : l ≠ []) :
    ∃ q, jsMinList (l.map num) = num q ∧ q ∈ l ∧ ∀ x ∈ l, q ≤ x := by
  match l, h with
  | v :: rest, _ =>
    refine ⟨rest.foldl min v, ?_, ?_, ?_⟩
    · show List.foldl jsMin posInf (num v :: rest.map num) = _
      rw [List.foldl_cons, jsMin_posInf_left, foldl_jsMin_map_num]
    · exact foldl_min_mem rest v
    · exact foldl_min_le rest v

/-- Evaluating `Math.max` over a non-empty list of finite values is the finite maximum. -/
theorem jsMaxList_spec (l : List ℚ) (h : l ≠ []) :
    ∃ q, jsMaxList (l.map num) = num q ∧ q ∈ l ∧ ∀ x ∈ l, x ≤ q := by
  match l, h with
  | v :: rest, _ =>
    refine ⟨rest.foldl max v, ?_, ?_, ?_⟩
    · show List.foldl jsMax negInf (num v :: rest.map num) = _
      rw [List.foldl_cons, jsMax_negInf_left, foldl_jsMax_map_num]
    · exact foldl_max_mem rest v
    · exact le_foldl_max rest v

/-- The entries extent is always a pair of finite numbers. -/
theorem entriesExtent_finite (entries : List LogEntry) :
    ∃ a b : ℚ, getWellLogEntriesExtentY entries = (num a, num b) := by
  by_cases h : entries.length = 0
  · exact ⟨0, 0, by simp [getWellLogEntriesExtentY, h]⟩
  · have hne : entries ≠ [] := by
      intro hcontra; exact h (by simp [hcontra])
    obtain ⟨a, ha, -, -⟩ :=
      jsMinList_spec (entries.map fun e => e.shape.coordinates.start) (by simpa using hne)
    obtain ⟨b, hb, -, -⟩ :=
      jsMaxList_spec (entries.map fun e => e.shape.coordinates.end_) (by simpa using hne)
    rw [List.map_map] at ha hb
    refine ⟨a, b, ?_⟩
    simp only [getWellLogEntriesExtentY, if_neg h]
    rw [show (fun e : LogEntry => num e.shape.coordinates.start)
          = (num ∘ fun e : LogEntry => e.shape.coordinates.start) from rfl,
        show (fun e : LogEntry => num e.shape.coordinates.end_)
          = (num ∘ fun e : LogEntry => e.shape.coordinates.end_) from rfl]
    rw [ha, hb]

/-- C6: `getWellLogEntriesExtentY` returns `[0, 0]` for an empty entry list,
and otherwise the minimum of `shape.coordinates.start` and the maximum of
`shape.coordinates.end` over all entries; on
`[{start:5,end:10},{start:2,end:20}]` it returns `[2, 20]`. -/
theorem claim_C6 :
    getWellLogEntriesExtentY [] = (num 0, num 0)
    ∧ (∀ entries : List LogEntry, entries ≠ [] →
        ∃ a b : ℚ,
          getWellLogEntriesExtentY entries = (num a, num b)
          ∧ a ∈ entries.map (fun e => e.shape.coordinates.start)
          ∧ (∀ x ∈ entries.map (fun e => e.shape.coordinates.start), a ≤ x)
          ∧ b ∈ entries.map (fun e => e.shape.coordinates.end_)
          ∧ (∀ x ∈ entries.map (fun e => e.shape.coordinates.end_), x ≤ b))
    ∧ getWellLogEntriesExtentY [⟨⟨⟨5, 10⟩⟩⟩, ⟨⟨⟨2, 20⟩⟩⟩] = (num 2, num 20) := by
  refine ⟨rfl, ?_, by decide⟩
  intro entries hne
  have h : ¬ entries.length = 0 := by
    intro hcontra; exact hne (List.length_eq_zero.mp hcontra)
  obtain ⟨a, ha, hamem, hale⟩ :=
    jsMinList_spec (entries.map fun e => e.shape.coordinates.start) (by simpa using hne)
  obtain ⟨b, hb, hbmem, hble⟩ :=
    jsMaxList_spec (entries.map fun e => e.shape.coordinates.end_) (by simpa using hne)
  rw [List.map_map] at ha hb
  refine ⟨a, b, ?_, hamem, hale, hbmem, hble⟩
  simp only [getWellLogEntriesExtentY, if_neg h]
  rw [show (fun e : LogEntry => num e.shape.coordinates.start)
        = (num ∘ fun e : LogEntry => e.shape.coordinates.start) from rfl,
      show (fun e : LogEntry => num e.shape.coordinates.end_)
        = (num ∘ fun e : LogEntry => e.shape.coordinates.end_) from rfl]
  rw [ha, hb]

/-- C6 witness: the general clause applied to the concrete one-entry list. -/
theorem claim_C6_witness :
    ∃ a b : ℚ,
      getWellLogEntriesExtentY [⟨⟨⟨5, 10⟩⟩⟩] = (num a, num b)
      ∧ a ∈ ([⟨⟨⟨5, 10⟩⟩⟩] : List LogEntry).map (fun e => e.shape.coordinates.start)
      ∧ (∀ x ∈ ([⟨⟨⟨5, 10⟩⟩⟩] : List LogEntry).map (fun e => e.shape.coordinates.start), a ≤ x)
      ∧ b ∈ ([⟨⟨⟨5, 10⟩⟩⟩] : List LogEntry).map (fun e => e.shape.coordinates.end_)
      ∧ (∀ x ∈ ([⟨⟨⟨5, 10⟩⟩⟩] : List LogEntry).map (fun e => e.shape.coordinates.end_), x ≤ b) :=
  claim_C6.2.1 [⟨⟨⟨5, 10⟩⟩⟩] (by decide)

/-- C7: when the current well log has no drawable construction elements,
`getConstructionExtentY` is exactly `[Infinity, -Infinity]`. -/
theorem claim_C7 (wellLog : WellLog) (h : getDrawableElements wellLog = []) :
    getConstructionExtentY (getDrawableElements wellLog) = (posInf, negInf) := by
  rw [h]; rfl

/-- C7 witness: a well log whose single construction element lacks
`position.coordinates`, so the drawable list is empty. -/
theorem claim_C7_witness :
    getConstructionExtentY (getDrawableElements noCoordsLog) = (posInf, negInf) :=
  claim_C7 noCoordsLog (by decide)

/-- C10: with no drawable construction elements the construction extent
`[Infinity, -Infinity]` is an identity for the min/max combine, so
`getWellLogExtentY` equals `getWellLogEntriesExtentY`; it is always a pair
of finite numbers, and `[0, 0]` when the entries are empty too. -/
theorem claim_C10 (wellLog : WellLog) (h : getDrawableElements wellLog = []) :
    getWellLogExtentY wellLog = getWellLogEntriesExtentY (getWellLogEntries wellLog)
    ∧ (∃ a b : ℚ, getWellLogExtentY wellLog = (num a, num b))
    ∧ (getWellLogEntries wellLog = [] → getWellLogExtentY wellLog = (num 0, num 0)) := by
  obtain ⟨a, b, hab⟩ := entriesExtent_finite (getWellLogEntries wellLog)
  have heq : getWellLogExtentY wellLog = getWellLogEntriesExtentY (getWellLogEntries wellLog) := by
    show (jsMin _ _, jsMax _ _) = _
    rw [h, hab]
    show (jsMin (num a) posInf, jsMax (num b) negInf) = _
    rw [jsMin_posInf_right, jsMax_negInf_right]
  refine ⟨heq, ⟨a, b, heq.trans hab⟩, ?_⟩
  intro hempty
  rw [heq, hempty]
  rfl

/-- C10 witness: the empty well log. -/
theorem claim_C10_witness :
    getWellLogExtentY ⟨none, none⟩ = getWellLogEntriesExtentY (getWellLogEntries ⟨none, none⟩)
    ∧ (∃ a b : ℚ, getWellLogExtentY ⟨none, none⟩ = (num a, num b))
    ∧ (getWellLogEntries ⟨none, none⟩ = [] → getWellLogExtentY ⟨none, none⟩ = (num 0, num 0)) :=
  claim_C10 ⟨none, none⟩ (by decide)

/-- Clamping `Math.max(x, 0)` is never less than `0` in the JavaScript order (a `NaN`
height is not `< 0` either). -/
theorem jsMax_zero_not_neg (x : JsNum) : ¬ jsLt (jsMax x (num 0)) (num 0) := by
  cases x with
  | nan => simp [jsMax, jsLt]
  | negInf => simp [jsMax, jsLt]
  | posInf => simp [jsMax, jsLt]
  | num q =>
    show ¬ (max q 0 < 0)
    simp [jsLt, le_max_right]

/-- C9: `getWellWaterLevel` is absent exactly when there is no cursor
sample; otherwise it is a rectangle with top `yScale(cursor value)`, height
`max(yScale(constructionExtentY[1]) - top, 0)` (never negative), starting at
the horizontal range's origin and spanning its full width. -/
theorem claim_C9 (xRange : ℚ × ℚ) (yScale : JsNum → JsNum)
    (cursorDatum : Option CursorDatum) (extentY : JsNum × JsNum) :
    (getWellWaterLevel xRange yScale cursorDatum extentY = none ↔ cursorDatum = none)
    ∧ (∀ d, cursorDatum = some d →
        ∃ rect, getWellWaterLevel xRange yScale cursorDatum extentY = some rect
          ∧ rect.y = yScale (num d.value)
          ∧ rect.height = jsMax (jsSub (yScale extentY.2) (yScale (num d.value))) (num 0)
          ∧ ¬ jsLt rect.height (num 0)
          ∧ (xRange.1 = 0 →
              rect.x = num xRange.1 ∧ rect.width = num (xRange.2 - xRange.1))) := by
  constructor
  · cases cursorDatum <;> simp [getWellWaterLevel]
  · rintro d rfl
    refine ⟨_, rfl, rfl, rfl, jsMax_zero_not_neg _, ?_⟩
    intro h0
    exact ⟨rfl, by simp [h0]⟩

/-- C9 witness: concrete scales, cursor sample and extent, with the
cursor-present hypothesis discharged. -/
theorem claim_C9_witness :
    ∃ rect, getWellWaterLevel (0, 100) id (some ⟨3⟩) (num 1, num 7) = some rect
      ∧ rect.y = id (num (3 : ℚ))
      ∧ rect.height = jsMax (jsSub (id ((num 1, num 7) : JsNum × JsNum).2) (id (num (3 : ℚ)))) (num 0)
      ∧ ¬ jsLt rect.height (num 0)
      ∧ (((0 : ℚ), (100 : ℚ)).1 = 0 →
          rect.x = num (((0 : ℚ), (100 : ℚ)) : ℚ × ℚ).1
            ∧ rect.width = num ((((0 : ℚ), (100 : ℚ)) : ℚ × ℚ).2 - (((0 : ℚ), (100 : ℚ)) : ℚ × ℚ).1)) :=
  (claim_C9 (0, 100) id (some ⟨3⟩) (num 1, num 7)).2 ⟨3⟩ rfl

/-- C5: the claim that rendering never mutates the stored record is wrong on
the code: `drawTableBody` reverses `waterLevels.samples` in place, so after
one draw the stored samples are no longer in chronological order, and a
second draw flips them back. -/
theorem claim_C5_mutation :
    (drawTableBody storedLevels).2 ≠ storedLevels
    ∧ (drawTableBody storedLevels).2.samples = some [⟨2⟩, ⟨1⟩]
    ∧ (drawTableBody (drawTableBody storedLevels).2).2 = storedLevels := by
  decide

/-- C8 counterexample: with a `FAILED` status recorded for the site, the
component's gate does *not* initiate a retried fetch, contradicting the
claim that a `FAILED` status permits one. -/
theorem claim_C8_counterexample :
    getWaterLevelStatus "USGS" "430406089232901" failedState = some CallStatus.FAILED
    ∧ ¬ (medianTableRetrievalGate "USGS" "430406089232901" failedState = true) := by
  decide

/-- C8 (amended): the component dispatches a retrieval exactly when no
status at all is recorded for the key; any recorded status — `STARTED`,
`DONE` or `FAILED` alike — makes it return without a new request. -/
theorem claim_C8_amended :
    (∀ (agencyCode siteId : String) (state : WaterLevelsState) (status : CallStatus),
      getWaterLevelStatus agencyCode siteId state = some status →
      medianTableRetrievalGate agencyCode siteId state = false)
    ∧ (∀ (agencyCode siteId : String) (state : WaterLevelsState),
      getWaterLevelStatus agencyCode siteId state = none →
      medianTableRetrievalGate agencyCode siteId state = true) := by
  constructor
  · intro a s st status h
    simp [medianTableRetrievalGate, h]
  · intro a s st h
    simp [medianTableRetrievalGate, h]

/-- C8 witness: a `STARTED` status blocks a second fetch. -/
theorem claim_C8_witness :
    medianTableRetrievalGate "USGS" "1" startedState = false :=
  claim_C8_amended.1 "USGS" "1" startedState CallStatus.STARTED (by decide)


/-- C2: a successful retrieval dispatches exactly three notifications —
STARTED, the data-set action, DONE, in that order — and the records become
visible exactly at the data-set action: not yet at the STARTED transition,
and no later than the DONE transition. -/
theorem claim_C2 (agencyCode siteId : String) (waterLevels : WaterLevelRecord)
    (s0 : WaterLevelsState) (h : getSiteWaterLevels agencyCode siteId s0 = none) :
    (retrieveWaterLevels agencyCode siteId waterLevels).length = 3
    ∧ retrieveWaterLevels agencyCode siteId waterLevels =
        [Action.waterLevelsCallStatus agencyCode siteId CallStatus.STARTED,
         Action.waterLevelsSet agencyCode siteId waterLevels,
         Action.waterLevelsCallStatus agencyCode siteId CallStatus.DONE]
    ∧ getWaterLevelStatus agencyCode siteId
        (applyActions s0 ((retrieveWaterLevels agencyCode siteId waterLevels).take 1))
        = some CallStatus.STARTED
    ∧ getSiteWaterLevels agencyCode siteId
        (applyActions s0 ((retrieveWaterLevels agencyCode siteId waterLevels).take 1)) = none
    ∧ getSiteWaterLevels agencyCode siteId
        (applyActions s0 ((retrieveWaterLevels agencyCode siteId waterLevels).take 2))
        = some waterLevels
    ∧ getWaterLevelStatus agencyCode siteId
        (applyActions s0 (retrieveWaterLevels agencyCode siteId waterLevels))
        = some CallStatus.DONE
    ∧ getSiteWaterLevels agencyCode siteId
        (applyActions s0 (retrieveWaterLevels agencyCode siteId waterLevels))
        = some waterLevels := by
  refine ⟨rfl, rfl, ?_, h, ?_, ?_, ?_⟩ <;>
    simp [retrieveWaterLevels, applyActions, waterLevelsReducer,
      getSiteWaterLevels, getWaterLevelStatus, List.lookup]

/-- C2 witness: the scenario of the test — key `('USGS','430406089232901')`
against an initially empty store. -/
theorem claim_C2_witness :
    (retrieveWaterLevels "USGS" "430406089232901" storedLevels).length = 3
    ∧ retrieveWaterLevels "USGS" "430406089232901" storedLevels =
        [Action.waterLevelsCallStatus "USGS" "430406089232901" CallStatus.STARTED,
         Action.waterLevelsSet "USGS" "430406089232901" storedLevels,
         Action.waterLevelsCallStatus "USGS" "430406089232901" CallStatus.DONE]
    ∧ getWaterLevelStatus "USGS" "430406089232901"
        (applyActions ⟨[], []⟩ ((retrieveWaterLevels "USGS" "430406089232901" storedLevels).take 1))
        = some CallStatus.STARTED
    ∧ getSiteWaterLevels "USGS" "430406089232901"
        (applyActions ⟨[], []⟩ ((retrieveWaterLevels "USGS" "430406089232901" storedLevels).take 1)) = none
    ∧ getSiteWaterLevels "USGS" "430406089232901"
        (applyActions ⟨[], []⟩ ((retrieveWaterLevels "USGS" "430406089232901" storedLevels).take 2))
        = some storedLevels
    ∧ getWaterLevelStatus "USGS" "430406089232901"
        (applyActions ⟨[], []⟩ (retrieveWaterLevels "USGS" "430406089232901" storedLevels))
        = some CallStatus.DONE
    ∧ getSiteWaterLevels "USGS" "430406089232901"
        (applyActions ⟨[], []⟩ (retrieveWaterLevels "USGS" "430406089232901" storedLevels))
        = some storedLevels :=
  claim_C2 "USGS" "430406089232901" storedLevels ⟨[], []⟩ rfl

/-- C3 counterexample: `noDiamElem` is drawable (position and coordinates
present) but lacks the `diameter` field, and on it both `getWellRadius` and
`getConstructionElements` hit a `TypeError` (reading `.value` of
`undefined`), modelled as `none`, instead of returning a value. -/
theorem claim_C3_counterexample :
    noDiamElem ∈ getDrawableElements noDiamLog
    ∧ noDiamElem.diameter = none
    ∧ getWellRadius (getDrawableElements noDiamLog) = none
    ∧ getConstructionElements id id (getDrawableElements noDiamLog) = none := by
  refine ⟨by decide, rfl, rfl, rfl⟩

/-- If every list element maps to `some`, the monadic map succeeds. -/
theorem mapM_isSome_of_forall {α β : Type} (f : α → Option β) :
    ∀ l : List α, (∀ a ∈ l, (f a).isSome) → (l.mapM f).isSome := by
  intro l
  induction l with
  | nil => intro _; rfl
  | cons a t ih =>
    intro h
    obtain ⟨b, hb⟩ := Option.isSome_iff_exists.mp (h a (List.mem_cons_self _ _))
    obtain ⟨bs, hbs⟩ := Option.isSome_iff_exists.mp (ih fun x hx => h x (List.mem_cons_of_mem _ hx))
    rw [List.mapM_cons]
    simp only [hb, hbs, Option.pure_def, Option.bind_eq_bind, Option.some_bind]
    rfl

/-- C3 (amended): missing `position`/`position.coordinates` is tolerated by
the drawable filter and a `null` `diameter.value` by the defaults, so when
every drawable element carries a `diameter` field both derivations return a
value; but a drawable element entirely lacking `diameter` crashes both (see
the counterexample). -/
theorem claim_C3_amended (wellLog : WellLog) (xScale yScale : ℚ → ℚ)
    (h : ∀ e ∈ getDrawableElements wellLog, e.diameter.isSome) :
    (getWellRadius (getDrawableElements wellLog)).isSome
    ∧ (getConstructionElements xScale yScale (getDrawableElements wellLog)).isSome := by
  constructor
  · have hmap : ((getDrawableElements wellLog).mapM
        fun part : Element => part.diameter.map Diameter.value).isSome := by
      apply mapM_isSome_of_forall
      intro e he
      obtain ⟨d, hd⟩ := Option.isSome_iff_exists.mp (h e he)
      simp [hd]
    obtain ⟨raw, hraw⟩ := Option.isSome_iff_exists.mp hmap
    rw [getWellRadius, hraw]
    simp only [Option.pure_def, Option.bind_eq_bind, Option.some_bind]
    cases hv : raw.filterMap id <;> rfl
  · have hmap : ((getDrawableElements wellLog).mapM (mkPart xScale yScale)).isSome := by
      apply mapM_isSome_of_forall
      intro e he
      obtain ⟨d, hd⟩ := Option.isSome_iff_exists.mp (h e he)
      simp [mkPart, hd]
    obtain ⟨parts, hparts⟩ := Option.isSome_iff_exists.mp hmap
    rw [getConstructionElements, hparts]
    rfl

/-- C3 witness: a well log whose single drawable element carries a diameter. -/
theorem claim_C3_witness :
    (getWellRadius (getDrawableElements goodLog)).isSome
    ∧ (getConstructionElements id id (getDrawableElements goodLog)).isSome :=
  claim_C3_amended goodLog id id (by decide)


/-! ## The z-order comparator and the sort (claim C4) -/

/-- The comparator's induced preorder, spelled out: descending by `left.y2`,
ties broken by descending `radius`. -/
theorem partCmpLE_iff (a b : Part) :
    partCmpLE a b ↔ (b.leftY2 < a.leftY2 ∨ (a.leftY2 = b.leftY2 ∧ b.radius ≤ a.radius)) := by
  unfold partCmpLE jsCompareParts
  rcases lt_trichotomy a.leftY2 b.leftY2 with h1 | h1 | h1
  · rw [if_pos h1]
    constructor
    · intro h2; exact absurd h2 (by norm_num)
    · rintro (h2 | ⟨h2, -⟩)
      · exact absurd h2 (lt_asymm h1)
      · exact absurd h2 (ne_of_lt h1)
  · rw [if_neg (by rw [h1]; exact lt_irrefl _), if_neg (by rw [h1]; exact lt_irrefl _)]
    rcases lt_trichotomy a.radius b.radius with h2 | h2 | h2
    · rw [if_pos h2]
      constructor
      · intro h3; exact absurd h3 (by norm_num)
      · rintro (h3 | ⟨-, h3⟩)
        · exact absurd (h1 ▸ h3) (lt_irrefl _)
        · exact absurd h2 (not_lt.mpr h3)
    · rw [if_neg (by rw [h2]; exact lt_irrefl _), if_neg (by rw [h2]; exact lt_irrefl _)]
      constructor
      · intro _; exact Or.inr ⟨h1, h2.ge⟩
      · intro _; norm_num
    · rw [if_neg (lt_asymm h2), if_pos h2]
      constructor
      · intro _; exact Or.inr ⟨h1, h2.le⟩
      · intro _; norm_num
  · rw [if_neg (lt_asymm h1), if_pos h1]
    constructor
    · intro _; exact Or.inl h1
    · intro _; norm_num

instance : IsTotal Part partCmpLE :=
  ⟨fun a b => by
    rw [partCmpLE_iff, partCmpLE_iff]
    rcases lt_trichotomy a.leftY2 b.leftY2 with h | h | h
    · exact Or.inr (Or.inl h)
    · rcases le_total b.radius a.radius with h2 | h2
      · exact Or.inl (Or.inr ⟨h, h2⟩)
      · exact Or.inr (Or.inr ⟨h.symm, h2⟩)
    · exact Or.inl (Or.inl h)⟩

instance : IsTrans Part partCmpLE :=
  ⟨fun a b c hab hbc => by
    rw [partCmpLE_iff] at hab hbc ⊢
    rcases hab with h1 | ⟨h1, h1r⟩ <;> rcases hbc with h2 | ⟨h2, h2r⟩
    · exact Or.inl (h2.trans h1)
    · exact Or.inl (by rw [← h2]; exact h1)
    · exact Or.inl (by rw [h1]; exact h2)
    · exact Or.inr ⟨h1.trans h2, h2r.trans h1r⟩⟩

/-- Stability of the z-order sort: restricted to any one `(left.y2, radius)`
key, the sorted list is the input list. -/
theorem filter_sortParts (k : ℚ × ℚ) (l : List Part) :
    (sortParts l).filter (fun q => decide ((q.leftY2, q.radius) = k))
      = l.filter (fun q => decide ((q.leftY2, q.radius) = k)) := by
  have hpair : (l.filter fun q => decide ((q.leftY2, q.radius) = k)).Pairwise partCmpLE := by
    apply List.pairwise_of_forall_mem_list
    intro x hx y hy
    have hx2 : (x.leftY2, x.radius) = k := of_decide_eq_true (List.mem_filter.mp hx).2
    have hy2 : (y.leftY2, y.radius) = k := of_decide_eq_true (List.mem_filter.mp hy).2
    have hxy : (x.leftY2, x.radius) = (y.leftY2, y.radius) := hx2.trans hy2.symm
    rw [Prod.mk.injEq] at hxy
    rw [partCmpLE_iff]
    exact Or.inr ⟨hxy.1, le_of_eq hxy.2.symm⟩
  have h3 : List.Sublist (l.filter fun q => decide ((q.leftY2, q.radius) = k)) (sortParts l) :=
    List.sublist_insertionSort hpair (List.filter_sublist l)
  have h4 := h3.filter (fun q => decide ((q.leftY2, q.radius) = k))
  rw [List.filter_filter] at h4
  have hidem : (l.filter fun q => ((decide ((q.leftY2, q.radius) = k))
      && (decide ((q.leftY2, q.radius) = k))))
      = l.filter fun q => decide ((q.leftY2, q.radius) = k) := by
    apply List.filter_congr
    intro q _
    exact Bool.and_self _
  rw [hidem] at h4
  have h5 : ((sortParts l).filter fun q => decide ((q.leftY2, q.radius) = k)).length
      = (l.filter fun q => decide ((q.leftY2, q.radius) = k)).length :=
    ((List.perm_insertionSort partCmpLE l).filter _).length_eq
  exact (h4.eq_of_length h5.symm).symm

/-- C4: the list returned by `getConstructionElements` is sorted descending
by `left.y2` with ties broken by descending `radius`; the sort is stable
(elements with equal `(y2, radius)` keep their input order) and only
reorders; and `(y2, radius)` pairs `[(10,2),(10,5),(5,3)]` sort to
`[(10,5),(10,2),(5,3)]`. -/
theorem claim_C4 :
    (∀ (xScale yScale : ℚ → ℚ) (elements : List Element) (ps : List Part),
        getConstructionElements xScale yScale elements = some ps →
        ps.Pairwise fun a b => b.leftY2 < a.leftY2 ∨ (a.leftY2 = b.leftY2 ∧ b.radius ≤ a.radius))
    ∧ (∀ (k : ℚ × ℚ) (l : List Part),
        (sortParts l).filter (fun q => decide ((q.leftY2, q.radius) = k))
          = l.filter (fun q => decide ((q.leftY2, q.radius) = k)))
    ∧ (∀ l : List Part, List.Perm (sortParts l) l)
    ∧ (sortParts [examplePart 10 2, examplePart 10 5, examplePart 5 3]).map
        (fun q => (q.leftY2, q.radius)) = [(10, 5), (10, 2), (5, 3)] := by
  refine ⟨?_, filter_sortParts, List.perm_insertionSort partCmpLE, by decide⟩
  intro xScale yScale elements ps h
  obtain ⟨parts, -, h2⟩ := Option.bind_eq_some.mp h
  have h3 : ps = sortParts (inferencePass xScale parts) := (Option.some_inj.mp h2).symm
  rw [h3]
  exact (List.sorted_insertionSort partCmpLE _).imp fun hab => (partCmpLE_iff _ _).mp hab

/-- C4 witness: the sortedness clause applied to a concrete construction. -/
theorem claim_C4_witness :
    ((getConstructionElements id id []).getD []).Pairwise
      (fun a b => b.leftY2 < a.leftY2 ∨ (a.leftY2 = b.leftY2 ∧ b.radius ≤ a.radius)) :=
  claim_C4.1 id id [] _ (by rfl)


/-! ## The radius-inference pass (claim C1) -/

theorem radius_setPartX (x : ℚ → ℚ) (r : ℚ) (p : Part) :
    (setPartX x r p).radius = p.radius := rfl

/-- Writing back the value already stored at an index leaves a list
unchanged. -/
theorem set_self {α : Type} : ∀ (l : List α) (i : Nat) (a : α),
    l[i]? = some a → l.set i a = l
  | [], i, a, h => by simp at h
  | b :: t, 0, a, h => by
    simp only [List.getElem?_cons_zero, Option.some_inj] at h
    rw [← h]; rfl
  | b :: t, n + 1, a, h => by
    simp only [List.getElem?_cons_succ] at h
    rw [List.set_cons_succ, set_self t n a h]

theorem inferStep_none (x : ℚ → ℚ) (ps : List Part) (i : Nat) (h : ps[i]? = none) :
    inferStep x ps i = ps := by
  unfold inferStep
  rw [h]

theorem inferStep_of_radius_ne (x : ℚ → ℚ) (ps : List Part) (i : Nat) (p : Part)
    (h : ps[i]? = some p) (hp : p.radius ≠ 0) :
    inferStep x ps i = ps := by
  unfold inferStep
  split
  · rfl
  · rename_i part heq
    rw [h] at heq
    injection heq with heq2
    rw [if_pos (heq2 ▸ hp)]

theorem length_inferStep (x : ℚ → ℚ) (ps : List Part) (i : Nat) :
    (inferStep x ps i).length = ps.length := by
  unfold inferStep
  split
  · rfl
  · split
    · rfl
    · split
      · split <;> simp [List.length_set]
      · simp [List.length_set]

theorem map_radius_inferStep (x : ℚ → ℚ) (ps : List Part) (i : Nat) :
    (inferStep x ps i).map Part.radius = ps.map Part.radius := by
  unfold inferStep
  split
  · rfl
  · rename_i part heq
    have hset : ∀ r : ℚ, (ps.set i (setPartX x r part)).map Part.radius = ps.map Part.radius := by
      intro r
      rw [List.map_set]
      apply set_self
      rw [List.getElem?_map, heq]
      rfl
    split
    · rfl
    · split
      · split
        · exact hset _
        · exact hset _
      · exact hset _

theorem getElem?_inferStep_ne (x : ℚ → ℚ) (ps : List Part) (i j : Nat) (hne : j ≠ i) :
    (inferStep x ps i)[j]? = ps[j]? := by
  unfold inferStep
  split
  · rfl
  · split
    · rfl
    · split
      · split
        · exact List.getElem?_set_ne (Ne.symm hne)
        · exact List.getElem?_set_ne (Ne.symm hne)
      · exact List.getElem?_set_ne (Ne.symm hne)

/-- The neighbor search only looks at radii, so it is invariant under
radius-preserving updates. -/
theorem find?_radius_congr : ∀ (ps qs : List Part),
    ps.map Part.radius = qs.map Part.radius →
    (ps.find? fun p => p.radius ≠ 0).map Part.radius
      = (qs.find? fun p => p.radius ≠ 0).map Part.radius := by
  intro ps
  induction ps with
  | nil =>
    intro qs h
    cases qs with
    | nil => rfl
    | cons b t => simp at h
  | cons a t ih =>
    intro qs h
    cases qs with
    | nil => simp at h
    | cons b s =>
      simp only [List.map_cons, List.cons.injEq] at h
      obtain ⟨h1, h2⟩ := h
      rw [List.find?_cons, List.find?_cons]
      by_cases hz : a.radius ≠ 0
      · have hz2 : b.radius ≠ 0 := h1 ▸ hz
        simp [hz, hz2, h1]
      · have hz2 : ¬ b.radius ≠ 0 := h1 ▸ hz
        simp only [hz, hz2, decide_False]
        exact ih s h2

theorem claimEffectiveRadius_congr {ps qs : List Part}
    (h : ps.map Part.radius = qs.map Part.radius) (i : Nat) :
    claimEffectiveRadius ps i = claimEffectiveRadius qs i := by
  have hL := find?_radius_congr (ps.take i).reverse (qs.take i).reverse
    (by rw [List.map_reverse, List.map_reverse, List.map_take, List.map_take, h])
  have hR := find?_radius_congr (ps.drop (i + 1)) (qs.drop (i + 1))
    (by rw [List.map_drop, List.map_drop, h])
  unfold claimEffectiveRadius
  rcases hA : (ps.take i).reverse.find? (fun p => p.radius ≠ 0) with _ | l1 <;>
    rcases hB : (qs.take i).reverse.find? (fun p => p.radius ≠ 0) with _ | l2 <;>
      rcases hC : (ps.drop (i + 1)).find? (fun p => p.radius ≠ 0) with _ | r1 <;>
        rcases hD : (qs.drop (i + 1)).find? (fun p => p.radius ≠ 0) with _ | r2 <;>
          rw [hA, hB] at hL <;> rw [hC, hD] at hR <;> rw [hA, hB, hC, hD] <;> simp_all

/-- Unfolding `neighborMin` by cases on the two neighbor searches. -/
theorem neighborMin_eq (ps : List Part) (i : Nat) :
    neighborMin ps i =
      match (ps.take i).reverse.find? (fun p => p.radius ≠ 0),
          (ps.drop (i + 1)).find? (fun p => p.radius ≠ 0) with
      | none, none => posInf
      | some l, none => num l.radius
      | none, some r => num r.radius
      | some l, some r => num (min l.radius r.radius) := by
  unfold neighborMin
  rcases hA : (ps.take i).reverse.find? (fun p => p.radius ≠ 0) with _ | l <;>
    rcases hB : (ps.drop (i + 1)).find? (fun p => p.radius ≠ 0) with _ | r <;>
      rw [hA, hB]
  · rfl
  · have hr : r.radius ≠ 0 := by simpa using List.find?_some hB
    simp [jsMinList, jsMin_posInf_left, hr]
  · have hl : l.radius ≠ 0 := by simpa using List.find?_some hA
    simp [jsMinList, jsMin_posInf_left, hl]
  · have hl : l.radius ≠ 0 := by simpa using List.find?_some hA
    have hr : r.radius ≠ 0 := by simpa using List.find?_some hB
    simp [jsMinList, jsMin_posInf_left, jsMin, hl, hr]

theorem inferStep_of_radius_zero (x : ℚ → ℚ) (ps : List Part) (i : Nat) (p : Part)
    (h : ps[i]? = some p) (hp : p.radius = 0) :
    inferStep x ps i = ps.set i (setPartX x (claimEffectiveRadius ps i) p) := by
  have hm := neighborMin_eq ps i
  unfold inferStep claimEffectiveRadius
  split
  · rename_i heq
    rw [heq] at h
    exact absurd h (by simp)
  · rename_i part heq
    rw [heq] at h
    injection h with he
    subst he
    rw [if_neg (by simp [hp])]
    rcases hA : (ps.take i).reverse.find? (fun q => q.radius ≠ 0) with _ | l <;>
      rcases hB : (ps.drop (i + 1)).find? (fun q => q.radius ≠ 0) with _ | r <;>
        rw [hA, hB] at hm ⊢
    · have hm2 : neighborMin ps i = posInf := hm
      rw [hm2]
      simp [jsTruthy, jsIsFinite]
    · have hr : r.radius ≠ 0 := by simpa using List.find?_some hB
      have hm2 : neighborMin ps i = num r.radius := hm
      rw [hm2]
      simp [jsTruthy, jsIsFinite, hr]
    · have hl : l.radius ≠ 0 := by simpa using List.find?_some hA
      have hm2 : neighborMin ps i = num l.radius := hm
      rw [hm2]
      simp [jsTruthy, jsIsFinite, hl]
    · have hl : l.radius ≠ 0 := by simpa using List.find?_some hA
      have hr : r.radius ≠ 0 := by simpa using List.find?_some hB
      have hmin : min l.radius r.radius ≠ 0 := by
        rcases min_choice l.radius r.radius with hc | hc <;> rw [hc] <;> assumption
      have hm2 : neighborMin ps i = num (min l.radius r.radius) := hm
      rw [hm2]
      simp [jsTruthy, jsIsFinite, hmin]

/-- Invariant of the radius-inference `for` loop after `k` iterations: radii
are unchanged everywhere, positions at indices not yet visited are
untouched, and every visited zero-radius part has been resolved to the
claimed effective radius. -/
theorem inferloop_invariant (x : ℚ → ℚ) (parts : List Part) : ∀ k : Nat,
    (((List.range k).foldl (inferStep x) parts).map Part.radius = parts.map Part.radius)
    ∧ (∀ j, k ≤ j → ((List.range k).foldl (inferStep x) parts)[j]? = parts[j]?)
    ∧ (∀ j, j < k → ((List.range k).foldl (inferStep x) parts)[j]?
        = (parts[j]?).map fun p =>
            if p.radius = 0 then setPartX x (claimEffectiveRadius parts j) p else p) := by
  intro k
  induction k with
  | zero => exact ⟨rfl, fun j _ => rfl, fun j hj => absurd hj (Nat.not_lt_zero j)⟩
  | succ k ih =>
    obtain ⟨ihr, ihge, ihlt⟩ := ih
    have hstep : (List.range (k + 1)).foldl (inferStep x) parts
        = inferStep x ((List.range k).foldl (inferStep x) parts) k := by
      rw [List.range_succ, List.foldl_append, List.foldl_cons, List.foldl_nil]
    refine ⟨?_, ?_, ?_⟩
    · rw [hstep, map_radius_inferStep, ihr]
    · intro j hj
      rw [hstep, getElem?_inferStep_ne _ _ _ _ (by omega), ihge j (by omega)]
    · intro j hj
      rcases Nat.lt_or_ge j k with hlt | hge
      · rw [hstep, getElem?_inferStep_ne _ _ _ _ (by omega), ihlt j hlt]
      · have hjk : j = k := by omega
        subst hjk
        have hFj : ((List.range j).foldl (inferStep x) parts)[j]? = parts[j]? :=
          ihge j (le_refl j)
        cases hpj : parts[j]? with
        | none =>
          have hn : ((List.range j).foldl (inferStep x) parts)[j]? = none := hFj.trans hpj
          rw [hstep, inferStep_none x _ j hn, hn]
          rfl
        | some p =>
          have hFj2 : ((List.range j).foldl (inferStep x) parts)[j]? = some p :=
            hFj.trans hpj
          by_cases hz : p.radius = 0
          · have hlen : j < ((List.range j).foldl (inferStep x) parts).length := by
              rcases List.getElem?_eq_some_iff.mp hFj2 with ⟨hlt2, -⟩
              exact hlt2
            rw [hstep, inferStep_of_radius_zero x _ j p hFj2 hz,
              List.getElem?_set_self hlen, claimEffectiveRadius_congr ihr j]
            simp [hz]
          · rw [hstep, inferStep_of_radius_ne x _ j p hFj2 hz, hFj2]
            simp [hz]

/-- C1: after the per-element pass of `getConstructionElements`, the
radius-inference pass resolves every part with falsy radius to the claimed
effective radius — the smaller of the nearest truthy-radius neighbors on
either side in list order, or `1` when there are none — setting both x
coordinates on the radius scale; parts with a truthy radius are untouched.
On radii `[2, 0, 0, 5]` the zero-radius parts resolve to `2`, giving
effective radii `[2, 2, 2, 5]`. -/
theorem claim_C1 :
    (∀ (xScale : ℚ → ℚ) (parts : List Part) (i : Nat) (p : Part),
        parts[i]? = some p → p.radius = 0 →
        (inferencePass xScale parts)[i]?
          = some (setPartX xScale (claimEffectiveRadius parts i) p))
    ∧ (∀ (xScale : ℚ → ℚ) (parts : List Part) (i : Nat) (p : Part),
        parts[i]? = some p → p.radius ≠ 0 →
        (inferencePass xScale parts)[i]? = some p)
    ∧ (inferencePass id
          [examplePart 40 2, examplePart 30 0, examplePart 20 0, examplePart 10 5]).map
        (fun q => (q.leftX, q.rightX))
        = [(some (-2), some 2), (some (-2), some 2), (some (-2), some 2),
            (some (-5), some 5)] := by
  refine ⟨?_, ?_, by decide⟩
  · intro x parts i p h hz
    have hi : i < parts.length := by
      rcases List.getElem?_eq_some_iff.mp h with ⟨hlt, -⟩
      exact hlt
    have inv := (inferloop_invariant x parts parts.length).2.2 i hi
    unfold inferencePass
    rw [inv, h]
    simp [hz]
  · intro x parts i p h hz
    have hi : i < parts.length := by
      rcases List.getElem?_eq_some_iff.mp h with ⟨hlt, -⟩
      exact hlt
    have inv := (inferloop_invariant x parts parts.length).2.2 i hi
    unfold inferencePass
    rw [inv, h]
    simp [hz]

/-- C1 witness: the zero-radius clause applied to the concrete `[2, 0, 0, 5]`
parts list, resolving index `1` to effective radius `2`. -/
theorem claim_C1_witness :
    (inferencePass id
        [examplePart 40 2, examplePart 30 0, examplePart 20 0, examplePart 10 5])[1]?
      = some (setPartX id
          (claimEffectiveRadius
            [examplePart 40 2, examplePart 30 0, examplePart 20 0, examplePart 10 5] 1)
          (examplePart 30 0)) :=
  claim_C1.1 id [examplePart 40 2, examplePart 30 0, examplePart 20 0, examplePart 10 5]
    1 (examplePart 30 0) (by rfl) (by rfl)

end Ngwmn
